import Mathlib

/-!
Verification of the `action.toolkit` library (`src/action/toolkit/toolkit.py`),
a helper for implementing GitHub Actions in Python.  The Python module is
shallowly embedded below: the process environment and the command line are
modelled as finite maps `String → Option String`, YAML scalar values as the
inductive `YVal`, and the two entry points `parse_arguments` and `action_main`
as pure Lean functions returning the resolved argument mapping together with
the observable effects (log lines, printed lines, exit code).
-/

namespace ActionToolkit

/-- A YAML scalar value as produced by `yaml.load` with the safe loader for a
manifest `default:` entry: either a string or a non-string scalar (bool, int).
A YAML `null` / absent default is modelled as `Option.none` around `YVal`,
matching `input_dict.get('default', None)` in the source. -/
inductive YVal where
  | str (s : String)
  | bool (b : Bool)
  | int (n : Int)
deriving DecidableEq, Repr

/-- The process environment: `os.getenv` returns `none` for an unset variable. -/
abbrev Env := String → Option String

/-- ASCII word character, as matched by the regex class `\w` under `re.ASCII`
in `posixpath.expandvars`. -/
def isWordChar (c : Char) : Bool := c.isAlphanum || c = '_'

/-- Scan for the closing `'\x7d'` of a `${...}` reference, as the regex
`\x5c\x7b[^\x7d]*\x7d` does in `posixpath.expandvars`: returns the characters
before the first closing brace and the remainder after it, or `none` when no
closing brace exists. -/
def spanToBrace : List Char → Option (List Char × List Char)
  | [] => none
  | c :: rest =>
    if c = '}' then some ([], rest)
    else (spanToBrace rest).map (fun p => (c :: p.1, p.2))

/-- Core loop of `posixpath.expandvars` (called by the source through
`os.path.expandvars`): scans left to right for `$name` and `${name}`
references; a reference whose variable is set is replaced by the variable's
value (which is not rescanned), an unknown variable is left unchanged, and
scanning continues after the reference.  The scan consumes at least one input
character per step, so it is driven by a fuel counter initialised to the
input length (see `expandvars`); with that initialisation the fuel never runs
out and `fuel` is purely a structural-termination device. -/
def expandvarsAux (env : Env) : Nat → List Char → List Char
  | _, [] => []
  | 0, l => l
  | fuel + 1, c :: rest =>
    if c = '$' then
      match rest with
      | [] => ['$']
      | '{' :: rest2 =>
        match spanToBrace rest2 with
        | some (name, rest3) =>
          match env (String.mk name) with
          | some v => v.data ++ expandvarsAux env fuel rest3
          | none => '$' :: '{' :: (name ++ '}' :: expandvarsAux env fuel rest3)
        | none => '$' :: '{' :: expandvarsAux env fuel rest2
      | d :: rest2 =>
        if isWordChar d then
          let name := d :: rest2.takeWhile isWordChar
          let rest3 := rest2.dropWhile isWordChar
          match env (String.mk name) with
          | some v => v.data ++ expandvarsAux env fuel rest3
          | none => '$' :: (name ++ expandvarsAux env fuel rest3)
        else
          '$' :: expandvarsAux env fuel (d :: rest2)
    else
      c :: expandvarsAux env fuel rest

/-- `os.path.expandvars`: expand shell variables of form `$var` and `${var}`;
unknown variables are left unchanged.  The source's early return when the
string contains no `'$'` is kept. -/
def expandvars (env : Env) (s : String) : String :=
  if s.data.contains '$' then String.mk (expandvarsAux env s.data.length s.data) else s

/-- `get_env(envar_list, default=None)`: each element of `envar_list` is tried
in order with `os.getenv`; the first value that is truthy (set and non-empty)
is returned as a string; otherwise the default is returned.  The default comes
from a manifest `default:` entry, hence `Option YVal`. -/
def get_env (env : Env) (envar_list : List String) (default : Option YVal := none) :
    Option YVal :=
  match envar_list with
  | [] => default
  | n :: rest =>
    match env n with
    | some v => if v = "" then get_env env rest default else some (.str v)
    | none => get_env env rest default

/-- Python `x or y` on an optional string `x` and a string `y`: returns `y`
when `x` is falsy (`None` or the empty string). Used by
`ActionSpec.__post_init__`. -/
def pyOr (x : Option String) (y : String) : String :=
  match x with
  | some s => if s = "" then y else s
  | none => y

/-- The `ActionSpec` dataclass as declared: `long_name`, `description` and
`env_prefix` default to `None` (`Option.none`); `set_defaults` and `do_action`
default to `None`.  Argument mappings are association lists from the argparse
destination name to the resolved value; `do_action` returns an output mapping
(dict) modelled as an association list. -/
structure ActionSpec where
  filename : String
  name : String
  long_name : Option String := none
  description : Option String := none
  env_prefix : Option String := none
  set_defaults : Option (List (String × Option YVal) → List (String × Option YVal)) := none
  do_action : Option (List (String × Option YVal) → List (String × String)) := none

/-- An `ActionSpec` after `__post_init__` has run: the three optional string
fields have been normalized to strings. -/
structure ActionSpecI where
  filename : String
  name : String
  long_name : String
  description : String
  env_prefix : String
  set_defaults : Option (List (String × Option YVal) → List (String × Option YVal)) := none
  do_action : Option (List (String × Option YVal) → List (String × String)) := none

/-- `ActionSpec.__post_init__`: each of `long_name`, `description` and
`env_prefix` is replaced by `self.name` when falsy (`None` or empty). -/
def postInit (s : ActionSpec) : ActionSpecI where
  filename := s.filename
  name := s.name
  long_name := pyOr s.long_name s.name
  description := pyOr s.description s.name
  env_prefix := pyOr (ActionSpec.env_prefix s) s.name
  set_defaults := s.set_defaults
  do_action := s.do_action

/-- One entry of the manifest's `inputs:` mapping, as loaded by `yaml.load`:
`input_dict.get('default', None)`, `input_dict.get('help', None)`,
`input_dict.get('required', False)`. -/
structure InputDecl where
  default : Option YVal := none
  help : Option String := none
  required : Bool := false

/-- The parsed `action.yaml` manifest: the `inputs:` mapping in document
order (Python dicts preserve insertion order). -/
structure Manifest where
  inputs : List (String × InputDecl)

/-- The `ArgSpec` namedtuple built in `parse_arguments` for each declared
input. -/
structure ArgSpec where
  name : String
  default : Option YVal
  help : Option String
  required : Bool
deriving Repr

/-- The manifest-reading loop of `parse_arguments`: for each input, the raw
default has environment references expanded when it is a string
(`isinstance(default, str)`), and is kept unchanged otherwise. -/
def buildArgSpecs (env : Env) (m : Manifest) : List ArgSpec :=
  m.inputs.map fun p =>
    { name := p.1
      default :=
        match p.2.default with
        | some (.str s) => some (.str (expandvars env s))
        | d => d
      help := p.2.help
      required := p.2.required }

/-- Python `s.replace(' ', '')`: every space character is removed. -/
def removeSpaces (s : String) : String :=
  String.mk (s.data.filter fun c => c ≠ ' ')

/-- Python `s.upper()` on the ASCII strings involved here: upper-case every
character. -/
def upper (s : String) : String :=
  String.mk (s.data.map Char.toUpper)

/-- The tool-specific environment-variable name consulted first:
`env_prefix` with spaces removed and upper-cased, an underscore, and the
input name upper-cased. -/
def toolEnvName (spec : ActionSpecI) (argName : String) : String :=
  upper (removeSpaces (ActionSpecI.env_prefix spec)) ++ "_" ++ upper argName

/-- The generic fallback environment-variable name, `INPUT_<NAME>`. -/
def inputEnvName (argName : String) : String :=
  "INPUT_" ++ upper argName

/-- The environment-variable name list passed to `get_env` in
`parse_arguments`, in consultation order. -/
def envNames (spec : ActionSpecI) (argName : String) : List String :=
  [toolEnvName spec argName, inputEnvName argName]

/-- The command line: maps a declared parameter name to the value supplied
with the flag `--<name>`, or `none` when the flag was not supplied. -/
abbrev Cli := String → Option String

/-- The value argparse stores for one declared parameter: the command-line
flag value when the flag was supplied (converted by `type=str`, the identity),
otherwise the `default=` computed by `get_env` over the two derived
environment-variable names with the manifest default as fallback. -/
def resolveArg (cli : Cli) (env : Env) (spec : ActionSpecI) (a : ArgSpec) : Option YVal :=
  match cli a.name with
  | some v => some (.str v)
  | none => get_env env (envNames spec a.name) a.default

/-- The argparse destination for the flag `--<name>`: hyphens are replaced by
underscores. -/
def destName (n : String) : String :=
  String.mk (n.data.map fun c => if c = '-' then '_' else c)

/-- `parse_arguments`: returns the namespace produced by `parse_args()`
(an association list from destination name to stored value), the
`missing_args` flag, and the error messages logged while computing it.
The required-argument loop tests `arg_spec.name not in args`, i.e. membership
of the declared input name among the namespace's attribute names (the
destination names). -/
def parse_arguments (cli : Cli) (env : Env) (m : Manifest) (spec : ActionSpecI) :
    List (String × Option YVal) × Bool × List String :=
  let arguments := buildArgSpecs env m
  let args := arguments.map fun a => (destName a.name, resolveArg cli env spec a)
  let missingNames :=
    (arguments.filter fun a => a.required && !((args.map Prod.fst).contains a.name)).map
      (fun a => a.name)
  (args, !missingNames.isEmpty,
    missingNames.map fun n => "ERROR:Missing required argument " ++ n)

/-- Rendering of a stored value by `'%s' % val` in the logging loop:
`None` prints as `"None"`, Python booleans as `"True"`/`"False"`. -/
def fmtVal : Option YVal → String
  | none => "None"
  | some (.str s) => s
  | some (.bool b) => if b then "True" else "False"
  | some (.int n) => toString n

/-- One line of `action_main`'s argument-logging loop, including the masking
of the argument named `token`. -/
def logArgLine (p : String × Option YVal) : String :=
  if p.1 = "token" then "INFO:  " ++ p.1 ++ "=********:"
  else "INFO:  " ++ p.1 ++ "=" ++ fmtVal p.2 ++ ":"

/-- Stable insertion into a list sorted by key, comparing keys only (dict
keys are distinct, so Python's tuple comparison in `sorted(args.items())`
never reaches the values). -/
def insertByKey (p : String × Option YVal) :
    List (String × Option YVal) → List (String × Option YVal)
  | [] => [p]
  | q :: qs => if p.1 ≤ q.1 then p :: q :: qs else q :: insertByKey p qs

/-- `sorted(args.items())` for distinct keys: sort the association list by
key in ascending order. -/
def sortByKey : List (String × Option YVal) → List (String × Option YVal)
  | [] => []
  | p :: ps => insertByKey p (sortByKey ps)

/-- The lines produced by `action_main`'s argument-logging loop over the
sorted items of the argument mapping. -/
def argLogLines (args : List (String × Option YVal)) : List String :=
  (sortByKey args).map logArgLine

/-- The observable behaviour of one `action_main` run: log lines (with the
`%(levelname)s:` prefix of the configured format), lines printed to stdout,
the exit status passed to `exit()` (`none` when `action_main` returns
normally), and the returned output mapping (`none` when the run exits). -/
structure MainResult where
  logLines : List String
  printLines : List String
  exitCode : Option Nat
  outputs : Option (List (String × String))
deriving Repr, DecidableEq

/-- The `::set-output` line printed for one output pair. -/
def setOutputLine (p : String × String) : String :=
  "::set-output name=" ++ p.1 ++ "::" ++ p.2

/-- The unprefixed `set-output` line printed a second time for unit-test
support. -/
def setOutputLinePlain (p : String × String) : String :=
  "set-output name=" ++ p.1 ++ "::" ++ p.2

/-- The argument mapping after `args = vars(args)` and the optional
`set_defaults` call in `action_main`. -/
def finalArgs (cli : Cli) (env : Env) (m : Manifest) (spec : ActionSpecI) :
    List (String × Option YVal) :=
  match spec.set_defaults with
  | some f => f (parse_arguments cli env m spec).1
  | none => (parse_arguments cli env m spec).1

/-- `action_main`: parses arguments, applies `set_defaults` when present,
logs the long name and every resolved argument (masking `token`), exits with
status 1 when `missing_args` is set, otherwise calls `do_action` when present
and prints its outputs twice (first with the `::` prefix, then without),
returning the outputs; with no `do_action` it returns the empty dict. -/
def action_main (cli : Cli) (env : Env) (m : Manifest) (spec : ActionSpecI) : MainResult :=
  let parsed := parse_arguments cli env m spec
  let args := finalArgs cli env m spec
  let headLog :=
    parsed.2.2 ++ ("INFO:" ++ spec.long_name ++ ", with arguments:") :: argLogLines args
  if parsed.2.1 then
    { logLines := headLog ++ ["ERROR:Some required arguments are missing!"]
      printLines := []
      exitCode := some 1
      outputs := none }
  else
    match spec.do_action with
    | some f =>
      let outs := f args
      { logLines := headLog
        printLines := outs.map setOutputLine ++ outs.map setOutputLinePlain
        exitCode := none
        outputs := some outs }
    | none =>
      { logLines := headLog
        printLines := []
        exitCode := none
        outputs := some [] }

/-! ### General lemmas and claim theorems -/

/-- An environment lookup that the resolver treats as absent: the variable is
unset, or set to the empty string (falsy in Python). -/
def unsetOrEmpty (o : Option String) : Prop := o = none ∨ o = some ""

/-- C8. `get_env` skips names whose environment value is empty exactly as if
they were unset: it returns the first non-empty binding (the first name on
which the filtered lookup finds something), otherwise the default, and it can
only return the empty string when the default itself is the empty string. -/
theorem get_env_first_nonempty (env : Env) (l : List String) (d : Option YVal) :
    (get_env env l d =
      match l.findSome? (fun n => (env n).bind fun v => if v = "" then none else some v) with
      | some v => some (YVal.str v)
      | none => d)
    ∧ (get_env env l d = some (.str "") → d = some (.str "")) := by
  induction l with
  | nil => exact ⟨rfl, fun h => h⟩
  | cons n rest ih =>
    constructor
    · rw [get_env, List.findSome?_cons]
      cases henv : env n with
      | none => simpa using ih.1
      | some v =>
        by_cases hv : v = "" <;> simp [hv, ih.1]
    · intro h
      cases henv : env n with
      | none =>
        simp only [get_env, henv] at h
        exact ih.2 h
      | some v =>
        simp only [get_env, henv] at h
        by_cases hv : v = ""
        · rw [if_pos hv] at h; exact ih.2 h
        · rw [if_neg hv] at h
          exact absurd (YVal.str.inj (Option.some.inj h)) hv

/-- Environment fixture: `A` is set but empty, `B` is set to `bval`. -/
def envAB : Env := fun n =>
  if n = "A" then some "" else if n = "B" then some "bval" else none

/-- Witness for C8 at a concrete input: the empty binding of `A` is skipped
and `B` is returned rather than the default. -/
theorem get_env_first_nonempty_w :
    get_env envAB ["A", "B"] (some (.str "dflt")) = some (.str "bval") := by
  rw [(get_env_first_nonempty envAB ["A", "B"] (some (.str "dflt"))).1]
  rfl

/-- C9. `ActionSpec.__post_init__` normalizes `long_name`, `description` and
`env_prefix`: a falsy field (`None` or empty) is replaced by `name`, a truthy
field is kept.  In the embedding the result type `ActionSpecI` carries the
three fields as plain strings, so after construction they can no longer be
`None`; `parse_arguments` and `action_main` consume only `ActionSpecI`. -/
theorem postInit_normalizes_names (s : ActionSpec) :
    ((s.long_name = none ∨ s.long_name = some "") → (postInit s).long_name = s.name)
    ∧ (∀ v, s.long_name = some v → v ≠ "" → (postInit s).long_name = v)
    ∧ ((s.description = none ∨ s.description = some "") → (postInit s).description = s.name)
    ∧ (∀ v, s.description = some v → v ≠ "" → (postInit s).description = v)
    ∧ ((ActionSpec.env_prefix s = none ∨ ActionSpec.env_prefix s = some "") →
        ActionSpecI.env_prefix (postInit s) = s.name)
    ∧ (∀ v, ActionSpec.env_prefix s = some v → v ≠ "" →
        ActionSpecI.env_prefix (postInit s) = v)
    ∧ (postInit s).name = s.name := by
  refine ⟨?_, ?_, ?_, ?_, ?_, ?_, rfl⟩
  · rintro (h | h) <;> simp [postInit, pyOr, h]
  · intro v hv hne; simp [postInit, pyOr, hv, hne]
  · rintro (h | h) <;> simp [postInit, pyOr, h]
  · intro v hv hne; simp [postInit, pyOr, hv, hne]
  · rintro (h | h) <;> simp [postInit, pyOr, h]
  · intro v hv hne; simp [postInit, pyOr, hv, hne]

/-- Pre-init fixture: `long_name` omitted, `description` empty, `env_prefix`
given. -/
def specPre : ActionSpec :=
  { filename := "action.yaml", name := "foo", long_name := none
    description := some "", env_prefix := some "Foo Bar" }

/-- Witness for C9 at a concrete input. -/
theorem postInit_normalizes_names_w :
    (postInit specPre).long_name = "foo"
    ∧ (postInit specPre).description = "foo"
    ∧ ActionSpecI.env_prefix (postInit specPre) = "Foo Bar" := by
  have h := postInit_normalizes_names specPre
  exact ⟨h.1 (Or.inl rfl), h.2.2.1 (Or.inr rfl), h.2.2.2.2.2.1 "Foo Bar" rfl (by decide)⟩

/-- C3. The environment variables consulted for a declared parameter are the
tool-specific name (`env_prefix` with spaces removed, upper-cased, `_`, the
parameter name upper-cased) and then `INPUT_` plus the parameter name
upper-cased, in exactly that order: when the first is set non-empty its value
is taken, and the second is consulted only when the first is unset or empty. -/
theorem env_var_name_derivation (spec : ActionSpecI) (n : String) (env : Env) (d : Option YVal) :
    (envNames spec n =
      [upper (removeSpaces (ActionSpecI.env_prefix spec)) ++ "_" ++ upper n,
       "INPUT_" ++ upper n])
    ∧ (∀ v, env (upper (removeSpaces (ActionSpecI.env_prefix spec)) ++ "_" ++ upper n) = some v →
        v ≠ "" → get_env env (envNames spec n) d = some (.str v))
    ∧ (unsetOrEmpty (env (toolEnvName spec n)) →
        get_env env (envNames spec n) d = get_env env ["INPUT_" ++ upper n] d) := by
  refine ⟨rfl, ?_, ?_⟩
  · intro v hv hne
    simp only [envNames, toolEnvName, inputEnvName] at hv ⊢
    simp [get_env, hv, hne]
  · rintro (h | h) <;>
      simp only [envNames, toolEnvName, inputEnvName] at h ⊢ <;>
      simp [get_env, h]

/-- Post-init fixture with a spaced prefix. -/
def specFB : ActionSpecI :=
  { filename := "action.yaml", name := "foo", long_name := "Foo Bar"
    description := "Foo Bar action", env_prefix := "Foo Bar" }

/-- Environment fixture: only the tool-specific variable is set. -/
def envTool : Env := fun n => if n = "FOOBAR_USER" then some "bob" else none

/-- Witness for C3 at a concrete input: the prefix `"Foo Bar"` yields
`FOOBAR_USER` and its value wins. -/
theorem env_var_name_derivation_w :
    envNames specFB "user" = ["FOOBAR_USER", "INPUT_USER"]
    ∧ get_env envTool (envNames specFB "user") none = some (.str "bob") := by
  have h := env_var_name_derivation specFB "user" envTool none
  refine ⟨by rw [h.1]; decide, h.2.1 "bob" (by decide) (by decide)⟩

theorem mk_data (s : String) : String.mk s.data = s := rfl

theorem spanToBrace_append_brace (l : List Char) (h : ('}' : Char) ∉ l) :
    spanToBrace (l ++ ['}']) = some (l, []) := by
  induction l with
  | nil => simp [spanToBrace]
  | cons c rest ih =>
    have hc : c ≠ '}' := fun hh => h (hh ▸ List.mem_cons_self c rest)
    have hr : ('}' : Char) ∉ rest := fun hh => h (List.mem_cons_of_mem c hh)
    simp only [List.cons_append]
    rw [spanToBrace, if_neg hc, ih hr]
    rfl

theorem expandvarsAux_braced (env : Env) (fuel : Nat) (nm : List Char) (v : String)
    (henv : env (String.mk nm) = some v) (hn : ('}' : Char) ∉ nm) :
    expandvarsAux env (fuel + 1) ('$' :: '{' :: (nm ++ ['}'])) = v.data := by
  have hspan := spanToBrace_append_brace nm hn
  simp only [expandvarsAux]
  split
  · split
    · rename_i name rest3 hs
      rw [hspan] at hs
      obtain ⟨rfl, rfl⟩ := Prod.mk.injEq .. ▸ Option.some.inj hs
      simp [henv, expandvarsAux]
    · rename_i hs
      rw [hspan] at hs
      cases hs
  · rename_i hcond
    exact absurd trivial hcond

/-- A braced environment reference expands to the variable's value whenever
the variable is set (the reference name may not contain a closing brace). -/
theorem expandvars_braced (env : Env) (name v : String)
    (henv : env name = some v) (hn : ('}' : Char) ∉ name.data) :
    expandvars env ("$\x7b" ++ name ++ "\x7d") = v := by
  have hdata : ("$\x7b" ++ name ++ "\x7d").data = '$' :: '{' :: (name.data ++ ['}']) := by
    simp
  have hc : ('$' :: '{' :: (name.data ++ ['}'])).contains '$' = true := by
    simp [List.contains_cons]
  have hlen : ('$' :: '{' :: (name.data ++ ['}'])).length = (name.data.length + 2) + 1 := by
    simp
  unfold expandvars
  rw [hdata, hlen, if_pos hc,
    expandvarsAux_braced env (name.data.length + 2) name.data v henv hn]

/-- C4. Manifest defaults: a string default has its embedded environment
references expanded by `expandvars` while the manifest is read (so the
expanded value is what later resolution falls back on), and a non-string or
absent default is used unchanged.  The second conjunct shows the expansion is
a real substitution; the third shows the expanded default is exactly what
resolution returns when neither the flag nor the environment provides a
value. -/
theorem manifest_default_expansion (env : Env) (m : Manifest) :
    (List.Forall₂
      (fun p a =>
        a.name = p.1 ∧ a.required = p.2.required ∧ a.help = p.2.help
        ∧ (∀ s, p.2.default = some (.str s) → a.default = some (.str (expandvars env s)))
        ∧ (∀ b, p.2.default = some (.bool b) → a.default = some (.bool b))
        ∧ (∀ k, p.2.default = some (.int k) → a.default = some (.int k))
        ∧ (p.2.default = none → a.default = none))
      m.inputs (buildArgSpecs env m))
    ∧ (∀ name v, env name = some v → ('}' : Char) ∉ name.data →
        expandvars env ("$\x7b" ++ name ++ "\x7d") = v)
    ∧ (∀ (cli : Cli) (spec : ActionSpecI) (a : ArgSpec), cli a.name = none →
        unsetOrEmpty (env (toolEnvName spec a.name)) →
        unsetOrEmpty (env (inputEnvName a.name)) →
        resolveArg cli env spec a = a.default) := by
  refine ⟨?_, expandvars_braced env, ?_⟩
  · obtain ⟨l⟩ := m
    induction l with
    | nil => exact List.Forall₂.nil
    | cons p ps ih =>
      refine List.Forall₂.cons ⟨rfl, rfl, rfl, ?_, ?_, ?_, ?_⟩ ih
      · intro s hs; simp [buildArgSpecs, hs]
      · intro b hb; simp [buildArgSpecs, hb]
      · intro k hk; simp [buildArgSpecs, hk]
      · intro h0; simp [buildArgSpecs, h0]
  · intro cli spec a hcli h1 h2
    simp only [resolveArg, hcli]
    rcases h1 with h1 | h1 <;> rcases h2 with h2 | h2 <;>
      simp [get_env, envNames, h1, h2]

/-- Environment fixture: only `GHE_TOKEN` is set. -/
def envGhe : Env := fun n => if n = "GHE_TOKEN" then some "s3cret" else none

/-- Manifest fixture: a string default with an embedded reference, and an
integer default. -/
def mTok : Manifest :=
  ⟨[("token", { default := some (.str "$\x7bGHE_TOKEN\x7d") }),
    ("count", { default := some (.int 3) })]⟩

/-- Witness for C4 at a concrete input: `$\x7bGHE_TOKEN\x7d` expands to the
token value while reading the manifest, and the integer default is kept. -/
theorem manifest_default_expansion_w :
    expandvars envGhe "$\x7bGHE_TOKEN\x7d" = "s3cret"
    ∧ (buildArgSpecs envGhe mTok).map (fun a => a.default) =
        [some (.str "s3cret"), some (.int 3)] := by
  have h := manifest_default_expansion envGhe mTok
  constructor
  · have h2 := h.2.1 "GHE_TOKEN" "s3cret" (by decide) (by decide)
    rw [show ("$\x7bGHE_TOKEN\x7d" : String) = "$\x7b" ++ "GHE_TOKEN" ++ "\x7d" by decide]
    exact h2
  · decide

/-- C1. Resolution precedence in `parse_arguments`: the namespace binds, for
each declared parameter in manifest order, the destination name to the value
of the command-line flag when supplied, otherwise to the first non-empty of
the two derived environment variables, otherwise to the (already expanded)
manifest default — which is `none` when the manifest declares no default. -/
theorem resolution_precedence (cli : Cli) (env : Env) (m : Manifest) (spec : ActionSpecI) :
    ((parse_arguments cli env m spec).1 =
      (buildArgSpecs env m).map fun a => (destName a.name, resolveArg cli env spec a))
    ∧ (∀ a : ArgSpec,
        (∀ v, cli a.name = some v → resolveArg cli env spec a = some (.str v))
        ∧ (cli a.name = none → ∀ v, env (toolEnvName spec a.name) = some v → v ≠ "" →
            resolveArg cli env spec a = some (.str v))
        ∧ (cli a.name = none → unsetOrEmpty (env (toolEnvName spec a.name)) →
            ∀ v, env (inputEnvName a.name) = some v → v ≠ "" →
            resolveArg cli env spec a = some (.str v))
        ∧ (cli a.name = none → unsetOrEmpty (env (toolEnvName spec a.name)) →
            unsetOrEmpty (env (inputEnvName a.name)) →
            resolveArg cli env spec a = a.default))
    ∧ List.Forall₂ (fun p a => a.name = p.1 ∧ (p.2.default = none → a.default = none))
        m.inputs (buildArgSpecs env m) := by
  refine ⟨rfl, ?_, ?_⟩
  · intro a
    refine ⟨?_, ?_, ?_, ?_⟩
    · intro v hv; simp [resolveArg, hv]
    · intro hcli v hv hne
      simp only [resolveArg, hcli, envNames]
      simp [get_env, hv, hne]
    · intro hcli h1 v hv hne
      simp only [resolveArg, hcli, envNames]
      rcases h1 with h1 | h1 <;> simp [get_env, h1, hv, hne]
    · intro hcli h1 h2
      simp only [resolveArg, hcli, envNames]
      rcases h1 with h1 | h1 <;> rcases h2 with h2 | h2 <;> simp [get_env, h1, h2]
  · obtain ⟨l⟩ := m
    induction l with
    | nil => exact List.Forall₂.nil
    | cons p ps ih =>
      refine List.Forall₂.cons ⟨rfl, ?_⟩ ih
      intro h0; simp [buildArgSpecs, h0]

/-- Command line fixture: only `--user` supplied. -/
def cliUser : Cli := fun n => if n = "user" then some "cliBob" else none

/-- Environment fixture: only the generic fallback variable is set. -/
def envUser : Env := fun n => if n = "INPUT_USER" then some "envBob" else none

/-- Empty command line. -/
def emptyCli : Cli := fun _ => none

/-- Empty environment. -/
def emptyEnv : Env := fun _ => none

/-- ArgSpec fixture for the `user` parameter with a manifest default. -/
def aUser : ArgSpec :=
  { name := "user", default := some (.str "dflt"), help := none, required := false }

/-- Witness for C1 at concrete inputs: the flag wins over the environment,
the environment wins over the default, and the default is used when both are
absent. -/
theorem resolution_precedence_w :
    resolveArg cliUser envUser specFB aUser = some (.str "cliBob")
    ∧ resolveArg emptyCli envUser specFB aUser = some (.str "envBob")
    ∧ resolveArg emptyCli emptyEnv specFB aUser = some (.str "dflt") := by
  refine ⟨((resolution_precedence cliUser envUser ⟨[]⟩ specFB).2.1 aUser).1 "cliBob" (by decide),
    ((resolution_precedence emptyCli envUser ⟨[]⟩ specFB).2.1 aUser).2.2.1 (by decide)
      (Or.inl (by decide)) "envBob" (by decide) (by decide),
    ((resolution_precedence emptyCli emptyEnv ⟨[]⟩ specFB).2.1 aUser).2.2.2 (by decide)
      (Or.inl (by decide)) (Or.inl (by decide))⟩

/-- Manifest fixture: a single required parameter with no default. -/
def mReq : Manifest := ⟨[("user", { required := true })]⟩

/-- C2 (code bug). With a required parameter `user` that resolves to no value
(empty environment, no flags, no default), the required-argument check of
`parse_arguments` still reports nothing: the namespace always contains an
attribute for every declared parameter (argparse assigns the default, here
`None`), so `arg_spec.name not in args` is false and `missing_args` comes
back `false` with no error logged — contradicting the function's own
docstring (the returned bool "indicates if any required arguments were
missing"). -/
theorem required_check_ineffective :
    (parse_arguments emptyCli emptyEnv mReq specFB).1 = [("user", none)]
    ∧ (parse_arguments emptyCli emptyEnv mReq specFB).2.1 = false
    ∧ (parse_arguments emptyCli emptyEnv mReq specFB).2.2 = [] := by
  decide

/-- Relation on argument entries: same key, and same value except possibly at
the key `token`. -/
def TokenEq (p q : String × Option YVal) : Prop :=
  p.1 = q.1 ∧ (p.1 ≠ "token" → p.2 = q.2)

theorem insertByKey_rel {p q : String × Option YVal}
    {l1 l2 : List (String × Option YVal)} (hpq : TokenEq p q)
    (h : List.Forall₂ TokenEq l1 l2) :
    List.Forall₂ TokenEq (insertByKey p l1) (insertByKey q l2) := by
  induction h with
  | nil => exact List.Forall₂.cons hpq List.Forall₂.nil
  | @cons x y l1t l2t hxy hrest ih =>
    simp only [insertByKey]
    by_cases hle : p.1 ≤ x.1
    · rw [if_pos hle, if_pos (by rw [← hpq.1, ← hxy.1]; exact hle)]
      exact List.Forall₂.cons hpq (List.Forall₂.cons hxy hrest)
    · rw [if_neg hle, if_neg (by rw [← hpq.1, ← hxy.1]; exact hle)]
      exact List.Forall₂.cons hxy ih

theorem sortByKey_rel {l1 l2 : List (String × Option YVal)}
    (h : List.Forall₂ TokenEq l1 l2) :
    List.Forall₂ TokenEq (sortByKey l1) (sortByKey l2) := by
  induction h with
  | nil => exact List.Forall₂.nil
  | cons hxy _hrest ih => exact insertByKey_rel hxy ih

theorem logArgLine_eq {p q : String × Option YVal} (h : TokenEq p q) :
    logArgLine p = logArgLine q := by
  obtain ⟨h1, h2⟩ := h
  unfold logArgLine
  rw [← h1]
  by_cases ht : p.1 = "token"
  · simp [ht]
  · simp [ht, h2 ht]

theorem map_logArgLine_eq {l1 l2 : List (String × Option YVal)}
    (h : List.Forall₂ TokenEq l1 l2) :
    l1.map logArgLine = l2.map logArgLine := by
  induction h with
  | nil => rfl
  | cons hxy _hrest ih => simp [List.map_cons, logArgLine_eq hxy, ih]

/-- C6. The value bound to `token` never influences the argument log: for two
argument mappings with the same keys that differ at most in the value bound
to `token`, the lines produced by `action_main`'s argument-logging loop
(`argLogLines`, applied by `action_main` to the post-`set_defaults` mapping)
are identical. -/
theorem token_value_masked (args1 args2 : List (String × Option YVal))
    (h : List.Forall₂ TokenEq args1 args2) :
    argLogLines args1 = argLogLines args2 :=
  map_logArgLine_eq (sortByKey_rel h)

/-- Witness for C6 at concrete inputs: changing only the token value leaves
the log lines unchanged. -/
theorem token_value_masked_w :
    argLogLines [("token", some (.str "secretA")), ("user", some (.str "bob"))]
      = argLogLines [("token", some (.str "secretB")), ("user", some (.str "bob"))] := by
  refine token_value_masked _ _ ?_
  refine List.Forall₂.cons ⟨rfl, ?_⟩ (List.Forall₂.cons ⟨rfl, ?_⟩ List.Forall₂.nil)
  · intro hne; exact absurd rfl hne
  · intro _; rfl

/-- C5. When no required argument is flagged missing and a `do_action` is
supplied, `action_main` prints, for the mapping returned by `do_action`, one
`::set-output` line per pair followed by one unprefixed `set-output` line per
pair — all prefixed lines before all unprefixed ones, two lines per pair —
and returns the mapping unchanged. -/
theorem dual_output_emission (cli : Cli) (env : Env) (m : Manifest) (spec : ActionSpecI)
    (f : List (String × Option YVal) → List (String × String))
    (hdo : ActionSpecI.do_action spec = some f)
    (hnm : (parse_arguments cli env m spec).2.1 = false) :
    (action_main cli env m spec).printLines =
      (f (finalArgs cli env m spec)).map setOutputLine
        ++ (f (finalArgs cli env m spec)).map setOutputLinePlain
    ∧ (action_main cli env m spec).outputs = some (f (finalArgs cli env m spec))
    ∧ (action_main cli env m spec).printLines.length
        = 2 * (f (finalArgs cli env m spec)).length := by
  simp only [action_main, hnm, hdo, Bool.false_eq_true, if_false]
  refine ⟨trivial, trivial, ?_⟩
  simp [List.length_append, List.length_map, two_mul]

/-- A concrete `do_action`. -/
def doActF : List (String × Option YVal) → List (String × String) :=
  fun _ => [("a", "1"), ("b", "2")]

/-- Spec fixture with a `do_action`. -/
def specDo : ActionSpecI := { specFB with do_action := some doActF }

/-- Witness for C5 at concrete inputs. -/
theorem dual_output_emission_w :
    (action_main emptyCli envGhe mTok specDo).printLines =
      ["::set-output name=a::1", "::set-output name=b::2",
       "set-output name=a::1", "set-output name=b::2"]
    ∧ (action_main emptyCli envGhe mTok specDo).outputs = some [("a", "1"), ("b", "2")] := by
  have h := dual_output_emission emptyCli envGhe mTok specDo doActF rfl (by decide)
  exact ⟨by rw [h.1]; decide, by rw [h.2.1]; decide⟩

/-- C7. A missing-arguments condition is non-fatal until checked:
`parse_arguments` returns it as data, and `action_main`, when the condition
is set, still applies `set_defaults` (`finalArgs`) and logs every resolved
argument, then terminates with exit status 1, printing nothing and calling no
`do_action` (no outputs are produced even when one is supplied). -/
theorem missing_args_nonfatal (cli : Cli) (env : Env) (m : Manifest) (spec : ActionSpecI)
    (h : (parse_arguments cli env m spec).2.1 = true) :
    action_main cli env m spec =
      { logLines :=
          ((parse_arguments cli env m spec).2.2
            ++ ("INFO:" ++ ActionSpecI.long_name spec ++ ", with arguments:")
              :: argLogLines (finalArgs cli env m spec))
          ++ ["ERROR:Some required arguments are missing!"]
        printLines := []
        exitCode := some 1
        outputs := none } := by
  simp only [action_main, h, if_true]

/-- Manifest fixture whose required parameter name contains a hyphen, the one
way the `missing_args` flag can actually be set (the argparse destination
`my_arg` differs from the declared name `my-arg`). -/
def mHyph : Manifest := ⟨[("my-arg", { required := true })]⟩

/-- Witness for C7 at concrete inputs: with the flag set and a `do_action`
supplied, everything is logged, the exit status is 1, and nothing is printed
or returned. -/
theorem missing_args_nonfatal_w :
    action_main emptyCli emptyEnv mHyph specDo =
      { logLines := ["ERROR:Missing required argument my-arg",
          "INFO:Foo Bar, with arguments:", "INFO:  my_arg=None:",
          "ERROR:Some required arguments are missing!"]
        printLines := []
        exitCode := some 1
        outputs := none } := by
  rw [missing_args_nonfatal emptyCli emptyEnv mHyph specDo (by decide)]
  decide

/-- C10. With no `do_action` and no missing-arguments condition,
`action_main` prints nothing and returns the empty mapping. -/
theorem no_do_action_returns_empty (cli : Cli) (env : Env) (m : Manifest)
    (spec : ActionSpecI)
    (hdo : ActionSpecI.do_action spec = none)
    (hnm : (parse_arguments cli env m spec).2.1 = false) :
    (action_main cli env m spec).printLines = []
    ∧ (action_main cli env m spec).outputs = some [] := by
  simp only [action_main, hnm, hdo, Bool.false_eq_true, if_false]
  exact ⟨trivial, trivial⟩

/-- Witness for C10 at concrete inputs. -/
theorem no_do_action_returns_empty_w :
    (action_main emptyCli envGhe mTok specFB).printLines = []
    ∧ (action_main emptyCli envGhe mTok specFB).outputs = some [] :=
  no_do_action_returns_empty emptyCli envGhe mTok specFB rfl (by decide)

end ActionToolkit
